import Mathlib

/-!
Shallow embedding of the Student Attendance Management System
(`src/main.py`, SQLite-backed persistence plus domain operations).

The SQLite database `attendance.db` is modelled by the structure `DB`:
the two `CREATE TABLE IF NOT EXISTS` tables are modelled by an
existence flag plus a list of rows each, rows kept in rowid
(insertion) order.  `ORDER BY name` with SQLite's default text
ordering is modelled by a sort on the relevant text column.  Each
Python function of the persistence/domain layer becomes a Lean
function of the same name; functions that only read the store return
their result together with the (unchanged) store, mirroring the
connect/query/close pattern of the source.
-/

/-- One row of the `attendance` table: `student_id`, `att_date`, `status`
(the internal auto-increment `id` is represented by list position). -/
structure Mark where
  sid : String
  date : String
  status : String
  deriving DecidableEq, Repr

/-- The persistent store `attendance.db`: existence flags for the two
tables created by `init_db`, and the rows of each table in rowid order.
A `students` row is a pair `(student_id, name)`. -/
structure DB where
  hasStudents : Bool
  hasAttendance : Bool
  students : List (String × String)
  attendance : List Mark
  deriving DecidableEq, Repr

/-- `init_db` from `src/main.py`: `CREATE TABLE IF NOT EXISTS` for both
tables — a table that already exists keeps its rows, a missing table is
created empty. -/
def init_db (db : DB) : DB :=
  { hasStudents := true
    hasAttendance := true
    students := if db.hasStudents then db.students else []
    attendance := if db.hasAttendance then db.attendance else [] }

/-- `add_student` from `src/main.py`: `INSERT INTO students`; the UNIQUE
constraint on `student_id` makes the insert fail when the id is already
present, and the `except` clause converts the error to `(False, str(e))`
leaving the table unchanged. -/
def add_student (student_id name : String) (db : DB) :
    (Bool × String) × DB :=
  if (db.students.map Prod.fst).contains student_id then
    ((false, "UNIQUE constraint failed: students.student_id"), db)
  else
    ((true, "Student added."),
      { db with students := db.students ++ [(student_id, name)] })

/-- SQLite's default (binary) text ordering: bytewise comparison of the
UTF-8 encodings, which on valid strings is exactly the lexicographic
order on the code-point sequences `String.data`. -/
def textLe (a b : String) : Prop := a.data ≤ b.data

instance : DecidableRel textLe := fun a b =>
  inferInstanceAs (Decidable (a.data ≤ b.data))

/-- Ordering used by `ORDER BY name` on the `students` table. -/
def studentLe (a b : String × String) : Prop := textLe a.2 b.2

instance : DecidableRel studentLe := fun a b =>
  inferInstanceAs (Decidable (textLe a.2 b.2))

instance : IsTotal (String × String) studentLe :=
  ⟨fun a b => le_total a.2.data b.2.data⟩

instance : IsTrans (String × String) studentLe :=
  ⟨fun _ _ _ h1 h2 => le_trans h1 h2⟩

/-- Ordering used by `ORDER BY s.name` on attendance-view rows
`(student_id, name, status)`. -/
def rowLe (a b : String × String × String) : Prop := textLe a.2.1 b.2.1

instance : DecidableRel rowLe := fun a b =>
  inferInstanceAs (Decidable (textLe a.2.1 b.2.1))

instance : IsTotal (String × String × String) rowLe :=
  ⟨fun a b => le_total a.2.1.data b.2.1.data⟩

instance : IsTrans (String × String × String) rowLe :=
  ⟨fun _ _ _ h1 h2 => le_trans h1 h2⟩

/-- `get_students` from `src/main.py`:
`SELECT student_id, name FROM students ORDER BY name`.  A pure read:
the returned store equals the input store. -/
def get_students (db : DB) : List (String × String) × DB :=
  (List.insertionSort studentLe db.students, db)

/-- `mark_attendance` from `src/main.py`:
`DELETE FROM attendance WHERE att_date=?` followed by one
`INSERT INTO attendance` per entry of the `records` dict (modelled as
an association list in dict iteration order; the UI always passes a
dict, so callers have pairwise-distinct keys). -/
def mark_attendance (att_date : String) (records : List (String × String))
    (db : DB) : DB :=
  { db with attendance :=
      db.attendance.filter (fun m => m.date ≠ att_date)
        ++ records.map (fun r => ⟨r.1, att_date, r.2⟩) }

/-- The attendance rows matching `a.student_id = sid AND a.att_date = d`
(the join condition of `get_attendance_for_date`). -/
def marksFor (att_date sid : String) (att : List Mark) : List Mark :=
  att.filter (fun m => m.sid = sid ∧ m.date = att_date)

/-- The view rows contributed by one `students` row under the LEFT
JOIN: one `Absent` row when no attendance row matches, otherwise one
row per matching attendance row. -/
def rowsFor (att_date : String) (att : List Mark) (p : String × String) :
    List (String × String × String) :=
  match marksFor att_date p.1 att with
  | [] => [(p.1, p.2, "Absent")]
  | ms => ms.map (fun m => (p.1, p.2, m.status))

/-- `get_attendance_for_date` from `src/main.py`: LEFT JOIN of
`students` against `attendance` rows of the given date with
`IFNULL(a.status, 'Absent')`, `ORDER BY s.name`.  A pure read. -/
def get_attendance_for_date (att_date : String) (db : DB) :
    List (String × String × String) × DB :=
  (List.insertionSort rowLe (db.students.flatMap (rowsFor att_date db.attendance)), db)

/-- `export_csv` from `src/main.py`, at the level of the rows handed to
`csv.writer.writerow` (which is what parsing the written file back as
comma-delimited rows yields): the header row, then one row per view
entry with the date repeated. -/
def export_csv (att_date : String) (db : DB) : List (List String) :=
  (get_attendance_for_date att_date db).1.foldl
    (fun acc r => acc ++ [[r.1, r.2.1, r.2.2, att_date]])
    [["Student ID", "Name", "Status", "Date"]]

/-- `AttendanceApp.show_attendance_view` from `src/main.py`, restricted
to the text it inserts into the cleared text area: the literal
`"No students found.\n"` when the view is empty, otherwise the lines
`sid | name -> status` joined by newlines. -/
def show_attendance_view (att_date : String) (db : DB) : String :=
  match (get_attendance_for_date att_date db).1 with
  | [] => "No students found.\n"
  | rows => String.intercalate "\n"
      (rows.map (fun r => r.1 ++ " | " ++ r.2.1 ++ " -> " ++ r.2.2))

/-- The attendance rows stored for a given date. -/
def rowsForDate (att_date : String) (db : DB) : List Mark :=
  db.attendance.filter (fun m => m.date = att_date)

/-- At most one stored attendance row per `(student_id, date)` pair:
no two rows of the table agree on both `student_id` and `att_date`. -/
def atMostOneMark (att : List Mark) : Prop :=
  att.Pairwise (fun m1 m2 => ¬ (m1.sid = m2.sid ∧ m1.date = m2.date))

instance (att : List Mark) : Decidable (atMostOneMark att) :=
  inferInstanceAs (Decidable (att.Pairwise _))

/-! ### Helper lemmas -/

lemma foldl_append_map {α β : Type} (f : α → List β) (l : List α)
    (init : List β) :
    l.foldl (fun acc r => acc ++ f r) init = init ++ l.flatMap f := by
  induction l generalizing init with
  | nil => simp
  | cons a l ih => simp [ih]

lemma filter_map_mk (att_date : String) (records : List (String × String))
    (p : Mark → Bool) (hp : ∀ r : String × String, p ⟨r.1, att_date, r.2⟩ = false) :
    (records.map (fun r => (⟨r.1, att_date, r.2⟩ : Mark))).filter p = [] := by
  induction records with
  | nil => simp
  | cons a l ih => simp [hp, ih]

/-- A second save for the same date leaves exactly the other-date rows
of the original store followed by one row per entry of the second
mapping; the first mapping's rows are all deleted. -/
lemma mark_mark_attendance (d : String) (m1 m2 : List (String × String))
    (db : DB) :
    (mark_attendance d m2 (mark_attendance d m1 db)).attendance
      = db.attendance.filter (fun m => m.date ≠ d)
          ++ m2.map (fun r => ⟨r.1, d, r.2⟩) := by
  simp only [mark_attendance, List.filter_append]
  rw [List.filter_filter, filter_map_mk]
  · rw [List.append_nil, List.filter_congr]
    intro m _
    simp
  · intro r
    simp

lemma rowsForDate_mark_self (d : String) (records : List (String × String))
    (db : DB) :
    rowsForDate d (mark_attendance d records db)
      = records.map (fun r => ⟨r.1, d, r.2⟩) := by
  simp only [rowsForDate, mark_attendance, List.filter_append]
  rw [List.filter_filter]
  have h1 : db.attendance.filter (fun m => decide (m.date = d) && decide (¬ m.date = d)) = [] := by
    apply List.filter_eq_nil_iff.mpr
    intro m _
    simp
  rw [h1, List.nil_append, List.filter_eq_self.mpr]
  intro m hm
  rcases List.mem_map.mp hm with ⟨r, _, rfl⟩
  simp

/-- The status value the view derives for a student id: the stored
status when a mark matches, `"Absent"` when none does. -/
def statusVals (att_date sid : String) (att : List Mark) : List String :=
  match marksFor att_date sid att with
  | [] => ["Absent"]
  | ms => ms.map (fun m => m.status)

/-- The statuses a list of view rows reports for one student id. -/
def statusesOf (sid : String) (rows : List (String × String × String)) :
    List String :=
  rows.filterMap (fun r => if r.1 = sid then some r.2.2 else none)

lemma statusesOf_append (sid : String)
    (l1 l2 : List (String × String × String)) :
    statusesOf sid (l1 ++ l2) = statusesOf sid l1 ++ statusesOf sid l2 := by
  simp [statusesOf]

lemma statusesOf_map_same (sid nm : String) (ms : List Mark) :
    statusesOf sid (ms.map (fun m => (sid, nm, m.status)))
      = ms.map (fun m => m.status) := by
  induction ms with
  | nil => rfl
  | cons m ms ih =>
      simp only [List.map_cons, statusesOf, List.filterMap_cons] at ih ⊢
      simp [ih]

lemma statusesOf_map_other (sid sid2 nm : String) (ms : List Mark)
    (h : sid2 ≠ sid) :
    statusesOf sid (ms.map (fun m => (sid2, nm, m.status))) = [] := by
  induction ms with
  | nil => rfl
  | cons m ms ih =>
      simp only [List.map_cons, statusesOf, List.filterMap_cons] at ih ⊢
      simp [ih, h]

lemma statusesOf_rowsFor (att_date sid : String) (att : List Mark)
    (p : String × String) :
    statusesOf sid (rowsFor att_date att p)
      = if p.1 = sid then statusVals att_date sid att else [] := by
  by_cases h : p.1 = sid
  · subst h
    simp only [if_pos rfl, rowsFor, statusVals]
    cases marksFor att_date p.1 att with
    | nil => simp [statusesOf]
    | cons m ms => exact statusesOf_map_same p.1 p.2 (m :: ms)
  · simp only [if_neg h, rowsFor]
    cases marksFor att_date p.1 att with
    | nil => simp [statusesOf, h]
    | cons m ms => exact statusesOf_map_other sid p.1 p.2 (m :: ms) h

lemma statusesOf_flatMap (att_date sid : String) (att : List Mark)
    (students : List (String × String)) :
    statusesOf sid (students.flatMap (rowsFor att_date att))
      = (students.filter (fun p => p.1 = sid)).flatMap
          (fun _ => statusVals att_date sid att) := by
  induction students with
  | nil => simp [statusesOf]
  | cons p l ih =>
      rw [List.flatMap_cons, statusesOf_append, ih]
      by_cases h : p.1 = sid
      · rw [statusesOf_rowsFor, if_pos h]
        simp [h]
      · rw [statusesOf_rowsFor, if_neg h]
        simp [h]

/-- For a student id occurring exactly once in the roster, the view's
statuses for that id are exactly `statusVals` (up to the sort, hence
stated as a permutation). -/
lemma statusesOf_view_perm (att_date sid : String) (db : DB)
    (hc : db.students.countP (fun p => p.1 = sid) = 1) :
    (statusesOf sid (get_attendance_for_date att_date db).1).Perm
      (statusVals att_date sid db.attendance) := by
  have hperm : (get_attendance_for_date att_date db).1.Perm
      (db.students.flatMap (rowsFor att_date db.attendance)) :=
    List.perm_insertionSort rowLe _
  refine (hperm.filterMap _).trans ?_
  have h2 := statusesOf_flatMap att_date sid db.attendance db.students
  rw [statusesOf] at h2
  rw [h2]
  have hlen : (db.students.filter (fun p => p.1 = sid)).length = 1 := by
    rw [← List.countP_eq_length_filter]
    exact hc
  rcases List.length_eq_one.mp hlen with ⟨a, ha⟩
  rw [ha]
  simp

lemma rowsForDate_mark_other (d d2 : String)
    (records : List (String × String)) (db : DB) (h : d2 ≠ d) :
    rowsForDate d2 (mark_attendance d records db) = rowsForDate d2 db := by
  simp only [rowsForDate, mark_attendance, List.filter_append]
  rw [filter_map_mk]
  · rw [List.append_nil, List.filter_filter, List.filter_congr]
    intro m _
    by_cases hm : m.date = d2
    · simp [hm, h]
    · simp [hm]
  · intro r
    simpa using Ne.symm h

lemma marksFor_after (d sid : String) (att : List Mark)
    (m2 : List (String × String)) :
    marksFor d sid (att.filter (fun m => m.date ≠ d)
        ++ m2.map (fun r => ⟨r.1, d, r.2⟩))
      = (m2.filter (fun r => r.1 = sid)).map (fun r => ⟨r.1, d, r.2⟩) := by
  simp only [marksFor, List.filter_append]
  rw [List.filter_filter]
  have h1 : att.filter
      (fun m => decide (m.sid = sid ∧ m.date = d) && decide (¬ m.date = d)) = [] := by
    apply List.filter_eq_nil_iff.mpr
    intro m _
    by_cases hm : m.date = d <;> simp [hm]
  rw [h1, List.nil_append, List.filter_map, List.filter_congr]
  intro r _
  simp

lemma filter_key_of_not_mem (m2 : List (String × String)) (sid : String)
    (h : sid ∉ m2.map Prod.fst) :
    m2.filter (fun r => r.1 = sid) = [] := by
  apply List.filter_eq_nil_iff.mpr
  intro r hr
  simp only [decide_eq_true_eq]
  intro hk
  exact h (List.mem_map.mpr ⟨r, hr, hk⟩)

lemma filter_key_of_nodup (m2 : List (String × String)) (sid st : String)
    (hnd : (m2.map Prod.fst).Nodup) (hm : (sid, st) ∈ m2) :
    m2.filter (fun r => r.1 = sid) = [(sid, st)] := by
  induction m2 with
  | nil => cases hm
  | cons a l ih =>
      rw [List.map_cons, List.nodup_cons] at hnd
      rcases List.mem_cons.mp hm with h1 | h1
      · subst h1
        rw [List.filter_cons_of_pos (by simp)]
        rw [filter_key_of_not_mem l sid hnd.1]
      · have hk : a.1 ≠ sid := by
          intro he
          exact hnd.1 (he ▸ List.mem_map.mpr ⟨(sid, st), h1, rfl⟩)
        rw [List.filter_cons_of_neg (by simp [hk])]
        exact ih hnd.2 h1

lemma atMostOne_marksFor (att : List Mark) (h : atMostOneMark att)
    (d sid : String) : (marksFor d sid att).length ≤ 1 := by
  induction att with
  | nil => simp [marksFor]
  | cons a l ih =>
      rw [atMostOneMark, List.pairwise_cons] at h
      by_cases hp : a.sid = sid ∧ a.date = d
      · rw [marksFor, List.filter_cons_of_pos (by simp [hp.1, hp.2])]
        have hnil : l.filter (fun m => decide (m.sid = sid ∧ m.date = d)) = [] := by
          apply List.filter_eq_nil_iff.mpr
          intro m hm
          simp only [decide_eq_true_eq]
          intro hc
          exact h.1 m hm ⟨hp.1.trans hc.1.symm, hp.2.trans hc.2.symm⟩
        rw [hnil]
        simp
      · rw [marksFor, List.filter_cons_of_neg (by simpa using hp)]
        exact ih h.2

/-- The status the view shows for one student id (stored mark when one
exists, `"Absent"` otherwise). -/
def statusFor (att_date sid : String) (att : List Mark) : String :=
  match marksFor att_date sid att with
  | [] => "Absent"
  | m :: _ => m.status

lemma rowsFor_singleton (att_date : String) (att : List Mark)
    (p : String × String) (h : (marksFor att_date p.1 att).length ≤ 1) :
    rowsFor att_date att p = [(p.1, p.2, statusFor att_date p.1 att)] := by
  rw [rowsFor, statusFor]
  cases hm : marksFor att_date p.1 att with
  | nil => rfl
  | cons m ms =>
      rw [hm] at h
      have : ms = [] := by
        cases ms with
        | nil => rfl
        | cons m2 ms2 => simp at h
      subst this
      rfl

lemma flatMap_rowsFor_eq_map (att_date : String) (att : List Mark)
    (students : List (String × String))
    (h : ∀ sid, (marksFor att_date sid att).length ≤ 1) :
    students.flatMap (rowsFor att_date att)
      = students.map (fun p => (p.1, p.2, statusFor att_date p.1 att)) := by
  induction students with
  | nil => rfl
  | cons p l ih =>
      rw [List.flatMap_cons, rowsFor_singleton att_date att p (h p.1), ih]
      rfl

lemma statusVals_of_nil (d sid : String) (att : List Mark)
    (h : marksFor d sid att = []) : statusVals d sid att = ["Absent"] := by
  unfold statusVals
  rw [h]

lemma statusVals_of_cons (d sid : String) (att : List Mark) (m : Mark)
    (ms : List Mark) (h : marksFor d sid att = m :: ms) :
    statusVals d sid att = (m :: ms).map (fun x => x.status) := by
  unfold statusVals
  rw [h]

lemma statusFor_of_nil (d sid : String) (att : List Mark)
    (h : marksFor d sid att = []) : statusFor d sid att = "Absent" := by
  unfold statusFor
  rw [h]

lemma flatMap_singleton_eq_map {α β : Type} (g : α → β) (l : List α) :
    l.flatMap (fun x => [g x]) = l.map g := by
  induction l with
  | nil => rfl
  | cons a l ih => simp [ih]

/-! ### Claim theorems -/

/-- C1: Replace-on-save.  After `mark_attendance d m1` then
`mark_attendance d m2`, the attendance store for `d` contains exactly
one row per entry of `m2` (and hence no row from `m1` whose student id
is absent from `m2`); for a student id occurring once in the roster,
`get_attendance_for_date d` afterwards reports `"Absent"` when the id
is absent from `m2` (in particular when it was marked only in `m1`),
and reports `st` — e.g. `"Present"` — when `m2` maps the id to `st`. -/
theorem mark_attendance_replaces (d : String)
    (m1 m2 : List (String × String)) (db : DB)
    (hm2 : (m2.map Prod.fst).Nodup) :
    rowsForDate d (mark_attendance d m2 (mark_attendance d m1 db))
      = m2.map (fun r => ⟨r.1, d, r.2⟩)
    ∧ ∀ sid : String, db.students.countP (fun p => p.1 = sid) = 1 →
        (sid ∉ m2.map Prod.fst →
          statusesOf sid (get_attendance_for_date d
              (mark_attendance d m2 (mark_attendance d m1 db))).1
            = ["Absent"])
        ∧ ∀ st : String, (sid, st) ∈ m2 →
            statusesOf sid (get_attendance_for_date d
                (mark_attendance d m2 (mark_attendance d m1 db))).1
              = [st] := by
  constructor
  · exact rowsForDate_mark_self d m2 (mark_attendance d m1 db)
  · intro sid hc
    have hcount : (mark_attendance d m2
        (mark_attendance d m1 db)).students.countP
          (fun p => p.1 = sid) = 1 := hc
    have hperm := statusesOf_view_perm d sid _ hcount
    have hmf : marksFor d sid (mark_attendance d m2
          (mark_attendance d m1 db)).attendance
        = (m2.filter (fun r => r.1 = sid)).map (fun r => ⟨r.1, d, r.2⟩) := by
      rw [mark_mark_attendance d m1 m2 db]
      exact marksFor_after d sid db.attendance m2
    constructor
    · intro hnot
      rw [filter_key_of_not_mem m2 sid hnot, List.map_nil] at hmf
      rw [statusVals_of_nil d sid _ hmf] at hperm
      exact List.perm_singleton.mp hperm
    · intro st hst
      rw [filter_key_of_nodup m2 sid st hm2 hst, List.map_cons,
        List.map_nil] at hmf
      rw [statusVals_of_cons d sid _ _ _ hmf] at hperm
      exact List.perm_singleton.mp hperm

/-- C2: Default-to-Absent derivation.  Under the store invariant of at
most one mark per `(student_id, date)` pair, the view for a date has
exactly one row per roster row — no student is omitted — whose status
is the stored mark when one exists and `"Absent"` otherwise. -/
theorem get_attendance_defaults_absent (d : String) (db : DB)
    (h : atMostOneMark db.attendance) :
    (get_attendance_for_date d db).1.Perm
      (db.students.map (fun p => (p.1, p.2, statusFor d p.1 db.attendance))) := by
  have hperm := List.perm_insertionSort rowLe
    (db.students.flatMap (rowsFor d db.attendance))
  refine hperm.trans ?_
  rw [flatMap_rowsFor_eq_map d db.attendance db.students
    (fun sid => atMostOne_marksFor db.attendance h d sid)]

/-- C3: Duplicate student id is rejected without partial effect: when
the roster already contains the id, `add_student` returns a `false`
flag (with the underlying error's message) and the whole store is
unchanged. -/
theorem add_student_duplicate_rejected (student_id name2 : String)
    (db : DB) (h : student_id ∈ db.students.map Prod.fst) :
    (add_student student_id name2 db).1.1 = false
    ∧ (add_student student_id name2 db).2 = db := by
  have hc : (db.students.map Prod.fst).contains student_id = true := by
    simpa using h
  simp only [add_student]
  rw [if_pos hc]
  exact ⟨rfl, rfl⟩

/-- A finite sequence of `mark_attendance` calls, each a pair of a date
and a saved mapping, applied in order (the only write path for the
`attendance` table in the source). -/
def runMarks (ops : List (String × List (String × String))) (db : DB) : DB :=
  ops.foldl (fun s op => mark_attendance op.1 op.2 s) db

lemma mark_preserves_atMostOne (d : String)
    (records : List (String × String)) (db : DB)
    (h : atMostOneMark db.attendance)
    (hk : (records.map Prod.fst).Nodup) :
    atMostOneMark (mark_attendance d records db).attendance := by
  refine List.pairwise_append.mpr ⟨?_, ?_, ?_⟩
  · exact h.sublist (List.filter_sublist _)
  · rw [List.pairwise_map]
    refine (List.pairwise_map.mp hk).imp ?_
    intro a b hne hcon
    exact hne hcon.1
  · intro a ha b hb
    have hda : ¬ a.date = d := by
      have := (List.mem_filter.mp ha).2
      simpa using this
    rcases List.mem_map.mp hb with ⟨r, _, rfl⟩
    intro hcon
    exact hda hcon.2

lemma runMarks_preserves :
    ∀ (ops : List (String × List (String × String))) (db : DB),
      atMostOneMark db.attendance →
      (∀ op ∈ ops, (op.2.map Prod.fst).Nodup) →
      atMostOneMark (runMarks ops db).attendance := by
  intro ops
  induction ops with
  | nil =>
      intro db h _
      simpa [runMarks] using h
  | cons op l ih =>
      intro db h hops
      have h1 := mark_preserves_atMostOne op.1 op.2 db h
        (hops op (List.mem_cons_self op l))
      have h2 := ih (mark_attendance op.1 op.2 db) h1
        (fun o ho => hops o (List.mem_cons_of_mem _ ho))
      simpa [runMarks] using h2

/-- C4: At-most-one-mark invariant.  Starting from an empty attendance
table, after any finite sequence of `mark_attendance` calls whose
mappings have pairwise-distinct keys (as every Python dict does), the
store holds at most one attendance row per `(student_id, date)` pair. -/
theorem marks_at_most_one_invariant
    (ops : List (String × List (String × String))) (db : DB)
    (hdb : db.attendance = [])
    (hops : ∀ op ∈ ops, (op.2.map Prod.fst).Nodup) :
    atMostOneMark (runMarks ops db).attendance := by
  refine runMarks_preserves ops db ?_ hops
  rw [atMostOneMark, hdb]
  exact List.Pairwise.nil

/-- C5: Export format.  `export_csv` produces exactly the header row
`Student ID, Name, Status, Date` followed by one row
`(student_id, name, status, att_date)` per view row, in view order,
with the date repeated in the last field of every data row. -/
theorem export_csv_rows (d : String) (db : DB) :
    export_csv d db
      = ["Student ID", "Name", "Status", "Date"]
          :: (get_attendance_for_date d db).1.map
              (fun r => [r.1, r.2.1, r.2.2, d]) := by
  rw [export_csv,
    foldl_append_map (fun r : String × String × String => [[r.1, r.2.1, r.2.2, d]]),
    flatMap_singleton_eq_map]
  rfl

/-- C6: Roster ordering.  `get_students` returns every roster row (a
permutation of the table) sorted ascending by name under the store's
text ordering, and `get_attendance_for_date` is sorted by name the
same way. -/
theorem get_students_sorted_by_name (d : String) (db : DB) :
    List.Sorted studentLe (get_students db).1
    ∧ (get_students db).1.Perm db.students
    ∧ List.Sorted rowLe (get_attendance_for_date d db).1 :=
  ⟨List.sorted_insertionSort studentLe db.students,
    List.perm_insertionSort studentLe db.students,
    List.sorted_insertionSort rowLe _⟩

/-- The per-row line format of the View panel. -/
def fmtLine (r : String × String × String) : String :=
  r.1 ++ " | " ++ r.2.1 ++ " -> " ++ r.2.2

/-- An initialized store with an empty roster. -/
def dbNoStudents : DB := ⟨true, true, [], []⟩

/-- C7 (counterexample): with an empty roster the View panel's Show
action does not render exactly `"No students found."` — the source
inserts the string with a trailing newline, `"No students found.\n"`. -/
theorem show_attendance_view_claim_false :
    ¬ (show_attendance_view "2024-01-01" dbNoStudents
        = "No students found.") := by decide

/-- C7 (amended): when the view for the date is empty the Show action
renders `"No students found."` followed by a single trailing newline;
otherwise it renders one line per view row in the form
`student_id | name -> status`, joined by single newlines with no
trailing newline after the last line. -/
theorem show_attendance_view_renders (d : String) (db : DB) :
    ((get_attendance_for_date d db).1 = [] →
      show_attendance_view d db = "No students found." ++ "\n")
    ∧ ((get_attendance_for_date d db).1 ≠ [] →
      show_attendance_view d db
        = String.intercalate "\n"
            ((get_attendance_for_date d db).1.map fmtLine)) := by
  constructor
  · intro hE
    unfold show_attendance_view
    rw [hE]
    decide
  · intro hne
    unfold show_attendance_view fmtLine
    cases hE : (get_attendance_for_date d db).1 with
    | nil => exact absurd hE hne
    | cons r rs => rfl

/-- C8: Schema-initialization idempotence.  Running `init_db` twice
equals running it once, afterwards both tables exist, and when a table
already existed its rows are untouched. -/
theorem init_db_idempotent (db : DB) :
    init_db (init_db db) = init_db db
    ∧ (init_db db).hasStudents = true
    ∧ (init_db db).hasAttendance = true
    ∧ (db.hasStudents = true → (init_db db).students = db.students)
    ∧ (db.hasAttendance = true → (init_db db).attendance = db.attendance) := by
  refine ⟨?_, rfl, rfl, fun h => ?_, fun h => ?_⟩
  · simp [init_db]
  · simp [init_db, h]
  · simp [init_db, h]

/-- C9: Empty-mapping save clears a date.  `mark_attendance d []`
deletes every row of date `d` and inserts none, leaves every other
date's rows untouched, and the subsequent view reports every roster
student as `"Absent"`. -/
theorem mark_attendance_empty_clears (d : String) (db : DB) :
    rowsForDate d (mark_attendance d [] db) = []
    ∧ (∀ d2, d2 ≠ d →
        rowsForDate d2 (mark_attendance d [] db) = rowsForDate d2 db)
    ∧ (get_attendance_for_date d (mark_attendance d [] db)).1.Perm
        (db.students.map (fun p => (p.1, p.2, "Absent"))) := by
  refine ⟨?_, fun d2 h => rowsForDate_mark_other d d2 [] db h, ?_⟩
  · simpa using rowsForDate_mark_self d [] db
  · have hm : ∀ sid, marksFor d sid (mark_attendance d [] db).attendance = [] := by
      intro sid
      have h1 := marksFor_after d sid db.attendance []
      exact h1.trans (by simp)
    have hperm := List.perm_insertionSort rowLe
      ((mark_attendance d [] db).students.flatMap
        (rowsFor d (mark_attendance d [] db).attendance))
    refine hperm.trans ?_
    rw [flatMap_rowsFor_eq_map d _ _ (fun sid => by rw [hm sid]; simp)]
    have hs : (mark_attendance d [] db).students = db.students := rfl
    rw [hs]
    have hmap : db.students.map
        (fun p => (p.1, p.2, statusFor d p.1 (mark_attendance d [] db).attendance))
          = db.students.map (fun p => (p.1, p.2, "Absent")) := by
      apply List.map_congr_left
      intro p _
      rw [statusFor_of_nil d p.1 _ (hm p.1)]
    rw [hmap]

/-- C10: Frame property.  `mark_attendance` changes neither the
`students` table nor the table-existence flags nor any attendance row
of a different date, and the two read operations return the store
unchanged. -/
theorem attendance_ops_frame (d d2 : String)
    (m : List (String × String)) (db : DB) :
    (mark_attendance d m db).students = db.students
    ∧ (mark_attendance d m db).hasStudents = db.hasStudents
    ∧ (mark_attendance d m db).hasAttendance = db.hasAttendance
    ∧ (d2 ≠ d → rowsForDate d2 (mark_attendance d m db) = rowsForDate d2 db)
    ∧ (get_students db).2 = db
    ∧ (get_attendance_for_date d db).2 = db :=
  ⟨rfl, rfl, rfl, fun h => rowsForDate_mark_other d d2 m db h, rfl, rfl⟩

/-! ### Concrete stores and witnesses -/

/-- An initialized store with two students and no marks. -/
def dbRoster : DB := ⟨true, true, [("S2", "Zoe"), ("S1", "Amy")], []⟩

/-- An initialized store with two students and one saved mark. -/
def dbMarked : DB :=
  ⟨true, true, [("S2", "Zoe"), ("S1", "Amy")],
    [⟨"S1", "2024-01-01", "Present"⟩]⟩

/-- Witness for C1 at a concrete store: saving `{S1: Present}` then
`{S2: Present}` for the same date leaves only the `S2` row, and the
view reports `S1` as Absent and `S2` as Present. -/
theorem mark_attendance_replaces_witness :
    ((([("S2", "Present")] : List (String × String)).map Prod.fst).Nodup)
    ∧ rowsForDate "2024-01-01"
        (mark_attendance "2024-01-01" [("S2", "Present")]
          (mark_attendance "2024-01-01" [("S1", "Present")] dbRoster))
        = ([("S2", "Present")] : List (String × String)).map
            (fun r => ⟨r.1, "2024-01-01", r.2⟩)
    ∧ statusesOf "S1" (get_attendance_for_date "2024-01-01"
        (mark_attendance "2024-01-01" [("S2", "Present")]
          (mark_attendance "2024-01-01" [("S1", "Present")] dbRoster))).1
        = ["Absent"]
    ∧ statusesOf "S2" (get_attendance_for_date "2024-01-01"
        (mark_attendance "2024-01-01" [("S2", "Present")]
          (mark_attendance "2024-01-01" [("S1", "Present")] dbRoster))).1
        = ["Present"] :=
  ⟨by decide,
   (mark_attendance_replaces "2024-01-01" [("S1", "Present")]
      [("S2", "Present")] dbRoster (by decide)).1,
   ((mark_attendance_replaces "2024-01-01" [("S1", "Present")]
      [("S2", "Present")] dbRoster (by decide)).2 "S1" (by decide)).1
        (by decide),
   ((mark_attendance_replaces "2024-01-01" [("S1", "Present")]
      [("S2", "Present")] dbRoster (by decide)).2 "S2" (by decide)).2
        "Present" (by decide)⟩

/-- Witness for C2 at a concrete store with one stored mark. -/
theorem get_attendance_defaults_absent_witness :
    atMostOneMark dbMarked.attendance
    ∧ (get_attendance_for_date "2024-01-01" dbMarked).1.Perm
        (dbMarked.students.map
          (fun p => (p.1, p.2, statusFor "2024-01-01" p.1 dbMarked.attendance))) :=
  ⟨by decide,
   get_attendance_defaults_absent "2024-01-01" dbMarked (by decide)⟩

/-- Witness for C3: a second add of id `S1` fails and changes nothing. -/
theorem add_student_duplicate_rejected_witness :
    ("S1" ∈ dbRoster.students.map Prod.fst)
    ∧ (add_student "S1" "Bob" dbRoster).1.1 = false
    ∧ (add_student "S1" "Bob" dbRoster).2 = dbRoster :=
  ⟨by decide,
   (add_student_duplicate_rejected "S1" "Bob" dbRoster (by decide)).1,
   (add_student_duplicate_rejected "S1" "Bob" dbRoster (by decide)).2⟩

/-- A concrete two-save sequence for the C4 witness. -/
def opsW : List (String × List (String × String)) :=
  [("2024-01-01", [("S1", "Present")]), ("2024-01-01", [("S2", "Present")])]

/-- Witness for C4 on a concrete sequence of two saves. -/
theorem marks_at_most_one_invariant_witness :
    dbRoster.attendance = []
    ∧ (∀ op ∈ opsW, (op.2.map Prod.fst).Nodup)
    ∧ atMostOneMark (runMarks opsW dbRoster).attendance :=
  ⟨rfl, by decide,
   marks_at_most_one_invariant opsW dbRoster rfl (by decide)⟩

/-- Witness for C7 (amended) at concrete stores: the empty-roster text
and the populated rendering. -/
theorem show_attendance_view_renders_witness :
    show_attendance_view "2024-01-01" dbNoStudents
      = "No students found." ++ "\n"
    ∧ show_attendance_view "2024-01-01" dbRoster
        = String.intercalate "\n"
            ((get_attendance_for_date "2024-01-01" dbRoster).1.map fmtLine) :=
  ⟨(show_attendance_view_renders "2024-01-01" dbNoStudents).1 (by decide),
   (show_attendance_view_renders "2024-01-01" dbRoster).2 (by decide)⟩

/-- Witness for C8 at a concrete store whose tables exist. -/
theorem init_db_idempotent_witness :
    dbMarked.hasStudents = true
    ∧ init_db (init_db dbMarked) = init_db dbMarked
    ∧ (init_db dbMarked).students = dbMarked.students :=
  ⟨rfl, (init_db_idempotent dbMarked).1,
   (init_db_idempotent dbMarked).2.2.2.1 rfl⟩

/-- Witness for C9 at a concrete store: clearing one date leaves the
other date's rows intact and removes the date's rows. -/
theorem mark_attendance_empty_clears_witness :
    ("2024-01-02" : String) ≠ "2024-01-01"
    ∧ rowsForDate "2024-01-02" (mark_attendance "2024-01-01" [] dbMarked)
        = rowsForDate "2024-01-02" dbMarked
    ∧ rowsForDate "2024-01-01" (mark_attendance "2024-01-01" [] dbMarked)
        = [] :=
  ⟨by decide,
   (mark_attendance_empty_clears "2024-01-01" dbMarked).2.1 "2024-01-02"
     (by decide),
   (mark_attendance_empty_clears "2024-01-01" dbMarked).1⟩

/-- Witness for C10 at a concrete store and a different date. -/
theorem attendance_ops_frame_witness :
    ("2024-01-02" : String) ≠ "2024-01-01"
    ∧ rowsForDate "2024-01-02"
        (mark_attendance "2024-01-01" [("S1", "Present")] dbMarked)
        = rowsForDate "2024-01-02" dbMarked
    ∧ (mark_attendance "2024-01-01" [("S1", "Present")] dbMarked).students
        = dbMarked.students :=
  ⟨by decide,
   (attendance_ops_frame "2024-01-01" "2024-01-02" [("S1", "Present")]
      dbMarked).2.2.2.1 (by decide),
   (attendance_ops_frame "2024-01-01" "2024-01-02" [("S1", "Present")]
      dbMarked).1⟩
